import Mathlib

set_option maxRecDepth 40000

/-!
Verification development for the Wix-to-WordPress blog migrator
(src/wix_to_wordpress_migrator.py).

The development shallowly embeds the pure core of the program:

* the HTML tree model used by the scraper (a rose tree of elements and
  text nodes, mirroring the BeautifulSoup parse tree built by the
  html parsing backend),
* the content cleaning pipeline `clean_wix_content` (tag removal,
  attribute stripping, figure and div unwrapping, span and paragraph
  cleanup, the final regular-expression post-processing on the
  serialized string),
* the field extractors `extract_title`, `extract_date`,
  `extract_category`, `extract_content` and the acceptance gate of
  `scrape_post`,
* the date normalizer `parse_date` (an embedding of the eight
  strptime patterns it tries, including the exact digit alternations
  the Python strptime regular expressions use),
* the export serializer `create_wordpress_xml` (escaping, slug
  derivation, per-item date resolution, item layout).

The HTML tree is encoded as a mutual inductive (node and forest) so
that every operation is defined by mutual structural recursion and
evaluates inside the kernel.
-/

/-! ### Python string primitives -/

/-- Characters treated as whitespace by Python str.strip and by the
regular-expression class backslash-s on unicode strings. -/
def pyIsSpace (c : Char) : Bool :=
  [' ', '\t', '\n', '\r', '\x0b', '\x0c',
   '\x1c', '\x1d', '\x1e', '\x1f', '\x85', '\xa0',
   '\u1680', '\u2000', '\u2001', '\u2002', '\u2003', '\u2004',
   '\u2005', '\u2006', '\u2007', '\u2008', '\u2009', '\u200A',
   '\u2028', '\u2029', '\u202F', '\u205F', '\u3000'].contains c

/-- Model of Python str.lower restricted to the ASCII case mapping
(the only part the slug and title blocklist logic depends on). -/
def pyLowerChar (c : Char) : Char :=
  if 'A' ≤ c ∧ c ≤ 'Z' then Char.ofNat (c.toNat + 32) else c

/-- Model of Python str.lower (ASCII case mapping, applied charwise). -/
def pyLower (s : String) : String :=
  String.mk (s.data.map pyLowerChar)

/-- Drop leading Python whitespace from a character list. -/
def dropWs (l : List Char) : List Char := l.dropWhile pyIsSpace

/-- Model of Python str.strip with no argument. -/
def pyStrip (s : String) : String :=
  String.mk ((dropWs ((dropWs s.data.reverse)).reverse))

/-- Model of Python str.startswith for a single candidate. -/
def pyStartsWith (s pre : String) : Bool :=
  pre.data.isPrefixOf s.data

/-- First component of a leftmost-first replacement of a literal
pattern: fuel-driven scan, replacing every non-overlapping occurrence
(model of Python str.replace, which replaces all occurrences). -/
def replaceAllGo (pat repl : List Char) : Nat → List Char → List Char
  | 0, l => l
  | _ + 1, [] => []
  | fuel + 1, c :: cs =>
    if pat ≠ [] ∧ pat.isPrefixOf (c :: cs) then
      repl ++ replaceAllGo pat repl fuel (List.drop pat.length (c :: cs))
    else
      c :: replaceAllGo pat repl fuel cs

/-- Model of Python str.replace (all occurrences, leftmost first). -/
def pyReplace (s pat repl : String) : String :=
  String.mk (replaceAllGo pat.data repl.data s.data.length s.data)

/-! ### The HTML tree model

A parse tree node is either a text node or an element with a name, an
ordered attribute list and a forest of children; this mirrors the
NavigableString and Tag objects of the BeautifulSoup tree the program
manipulates.  The forest type is a specialized list so that all tree
operations are mutual structural recursions. -/

mutual
inductive Node where
  | text (s : String)
  | elem (name : String) (attrs : List (String × String)) (children : Forest)
inductive Forest where
  | nil
  | cons (hd : Node) (tl : Forest)
end

/-- Build a forest from a list of nodes. -/
def Forest.ofList : List Node → Forest
  | [] => .nil
  | n :: ns => .cons n (Forest.ofList ns)

/-- Forest concatenation. -/
def Forest.append : Forest → Forest → Forest
  | .nil, g => g
  | .cons n f, g => .cons n (Forest.append f g)

/-- Number of children in a forest, as list of div.children would
count them (text nodes included). -/
def Forest.length : Forest → Nat
  | .nil => 0
  | .cons _ f => Forest.length f + 1

/-- Look up an attribute value, as Tag.get does (None when absent). -/
def getAttr (attrs : List (String × String)) (key : String) : Option String :=
  match attrs with
  | [] => none
  | (k, v) :: rest => if k = key then some v else getAttr rest key

/-- Attribute lookup defaulting to the empty string. -/
def attrD (attrs : List (String × String)) (key : String) : String :=
  (getAttr attrs key).getD ""

mutual
/-- Concatenated text of a node, as get_text with no arguments. -/
def Node.getText : Node → String
  | .text s => s
  | .elem _ _ cs => Forest.getText cs
/-- Concatenated text of a forest. -/
def Forest.getText : Forest → String
  | .nil => ""
  | .cons n f => Node.getText n ++ Forest.getText f
end

mutual
/-- Concatenated per-piece-stripped text of a node, as
get_text with strip set to true. -/
def Node.getTextStrip : Node → String
  | .text s => pyStrip s
  | .elem _ _ cs => Forest.getTextStrip cs
/-- Concatenated per-piece-stripped text of a forest. -/
def Forest.getTextStrip : Forest → String
  | .nil => ""
  | .cons n f => Node.getTextStrip n ++ Forest.getTextStrip f
end

mutual
/-- Whether some descendant element (the node itself excluded at the
top call, as Tag.find searches descendants only) has a name in the
given list. -/
def Node.hasDescIn (names : List String) : Node → Bool
  | .text _ => false
  | .elem _ _ cs => Forest.hasElemIn names cs
/-- Whether some element of the forest, at any depth, has a name in
the given list. -/
def Forest.hasElemIn (names : List String) : Forest → Bool
  | .nil => false
  | .cons (.text _) f => Forest.hasElemIn names f
  | .cons (.elem n _ cs) f =>
    names.contains n || Forest.hasElemIn names cs || Forest.hasElemIn names f
end

/-! ### clean_wix_content: tree rewriting stages

Each stage mirrors one pass of clean_wix_content (source lines
395-518).  The imperative passes there iterate over a find_all
snapshot in document order while mutating the tree; because each
decision of a pass depends only on the subtree of the element being
visited (and ancestors are visited before descendants), every pass is
equivalent to the top-down structural recursion written here. -/

/-- Tag names whose whole subtrees clean_wix_content removes
(source line 411). -/
def junkTags : List String :=
  ["script", "style", "button", "nav", "header", "footer"]

mutual
/-- Decompose every element whose name is in the given list, subtree
included; used by stage 1 of clean_wix_content and by the unwanted
element removal inside extract_content. -/
def Node.removeNamed (names : List String) : Node → Forest
  | .text s => .cons (.text s) .nil
  | .elem n a cs =>
    if names.contains n then .nil
    else .cons (.elem n a (Forest.removeNamed names cs)) .nil
/-- Removal of named elements over a forest. -/
def Forest.removeNamed (names : List String) : Forest → Forest
  | .nil => .nil
  | .cons x xs =>
    Forest.append (Node.removeNamed names x) (Forest.removeNamed names xs)
end

/-- Stage 1 of clean_wix_content: decompose
script/style/button/nav/header/footer (source line 411). -/
def Forest.removeJunk (f : Forest) : Forest := Forest.removeNamed junkTags f

mutual
/-- Stage 2: decompose svg elements that carry no alt attribute
(source lines 415-417). -/
def Node.removeSvgs : Node → Forest
  | .text s => .cons (.text s) .nil
  | .elem n a cs =>
    if n = "svg" ∧ attrD a "alt" = "" then .nil
    else .cons (.elem n a (Forest.removeSvgs cs)) .nil
/-- Stage 2 over a forest. -/
def Forest.removeSvgs : Forest → Forest
  | .nil => .nil
  | .cons x xs => Forest.append (Node.removeSvgs x) (Forest.removeSvgs xs)
end

/-- The attribute whitelist kept on img elements, in the order the
source collects them into essential_attrs (source line 424). -/
def essentialImgAttrs : List String :=
  ["src", "alt", "title", "width", "height", "srcset", "loading"]

/-- Collect the whitelisted attributes of an img in whitelist order,
as the essential_attrs dict is built. -/
def keepEssential (a : List (String × String)) : List (String × String) :=
  essentialImgAttrs.filterMap fun k => (getAttr a k).map fun v => (k, v)

mutual
/-- Stage 3: strip every attribute, except the whitelist on img
elements (source lines 420-431). -/
def Node.stripAttrs : Node → Node
  | .text s => .text s
  | .elem n a cs =>
    if n = "img" then .elem n (keepEssential a) (Forest.stripAttrs cs)
    else .elem n [] (Forest.stripAttrs cs)
/-- Stage 3 over a forest. -/
def Forest.stripAttrs : Forest → Forest
  | .nil => .nil
  | .cons x xs => .cons (Node.stripAttrs x) (Forest.stripAttrs xs)
end

mutual
/-- Stage 4: unwrap figure elements with no img descendant
(source lines 434-436). -/
def Node.unwrapFigures : Node → Forest
  | .text s => .cons (.text s) .nil
  | .elem n a cs =>
    if n = "figure" ∧ ¬ Forest.hasElemIn ["img"] cs then Forest.unwrapFigures cs
    else .cons (.elem n a (Forest.unwrapFigures cs)) .nil
/-- Stage 4 over a forest. -/
def Forest.unwrapFigures : Forest → Forest
  | .nil => .nil
  | .cons x xs => Forest.append (Node.unwrapFigures x) (Forest.unwrapFigures xs)
end

/-- Element names counted as meaningful children by the div collapse
(source lines 455-458). -/
def meaningfulTags : List String :=
  ["p", "h1", "h2", "h3", "h4", "h5", "h6", "figure", "img",
   "ul", "ol", "blockquote", "strong", "em", "a"]

/-- Whether a forest of children contains a meaningful element as a
direct child (text children never count, as in the source where only
objects carrying a tag name are tested). -/
def hasMeaningfulChild : Forest → Bool
  | .nil => false
  | .cons (.text _) f => hasMeaningfulChild f
  | .cons (.elem n _ _) f => meaningfulTags.contains n || hasMeaningfulChild f

/-- The div unwrapping condition of source lines 452-462: at most 5
children and (a meaningful child or exactly one child). -/
def divEligible (cs : Forest) : Bool :=
  cs.length ≤ 5 && (hasMeaningfulChild cs || cs.length = 1)

mutual
/-- One pass of the aggressive div unwrapping (source lines 447-466);
the Bool records whether the pass unwrapped anything. -/
def Node.divPass : Node → Forest × Bool
  | .text s => (.cons (.text s) .nil, false)
  | .elem n a cs =>
    if n = "div" ∧ divEligible cs then
      let r := Forest.divPass cs
      (r.1, true)
    else
      let r := Forest.divPass cs
      (.cons (.elem n a r.1) .nil, r.2)
/-- One div pass over a forest. -/
def Forest.divPass : Forest → Forest × Bool
  | .nil => (.nil, false)
  | .cons x xs =>
    let r1 := Node.divPass x
    let r2 := Forest.divPass xs
    (Forest.append r1.1 r2.1, r1.2 || r2.2)
end

/-- Stage 5: repeat div passes while changes are made, at most
max_iterations passes (source lines 439-466, cap 15). -/
def divLoop : Nat → Forest → Forest
  | 0, f => f
  | k + 1, f =>
    let r := Forest.divPass f
    if r.2 then divLoop k r.1 else r.1

mutual
/-- Stage 6: span cleanup (source lines 469-478): a span whose
stripped text is empty (or one of the literal placeholder strings) is
decomposed, otherwise a span with no style and no class attribute is
unwrapped. -/
def Node.spanClean : Node → Forest
  | .text s => .cons (.text s) .nil
  | .elem n a cs =>
    if n = "span" then
      let t := Forest.getTextStrip cs
      if t = "" ∨ t = "&nbsp;" ∨ t = " " ∨ t = "\xa0" then .nil
      else if attrD a "style" = "" ∧ attrD a "class" = "" then Forest.spanClean cs
      else .cons (.elem n a (Forest.spanClean cs)) .nil
    else .cons (.elem n a (Forest.spanClean cs)) .nil
/-- Stage 6 over a forest. -/
def Forest.spanClean : Forest → Forest
  | .nil => .nil
  | .cons x xs => Forest.append (Node.spanClean x) (Forest.spanClean xs)
end

mutual
/-- Stage 7: remove paragraphs whose stripped text is empty or a
placeholder (source lines 481-488); the whole subtree is decomposed,
images inside included. -/
def Node.removeEmptyPs : Node → Forest
  | .text s => .cons (.text s) .nil
  | .elem n a cs =>
    if n = "p" then
      let t := Forest.getTextStrip cs
      if t = "" ∨ t = "&nbsp;" ∨ t = " " ∨ t = "\xa0" then .nil
      else .cons (.elem n a (Forest.removeEmptyPs cs)) .nil
    else .cons (.elem n a (Forest.removeEmptyPs cs)) .nil
/-- Stage 7 over a forest. -/
def Forest.removeEmptyPs : Forest → Forest
  | .nil => .nil
  | .cons x xs => Forest.append (Node.removeEmptyPs x) (Forest.removeEmptyPs xs)
end

mutual
/-- Stage 8: link cleanup (source lines 491-497): an anchor with an
href keeps exactly that attribute, an anchor without href is
unwrapped.  After stage 3 every href has already been stripped, so in
the composed pipeline every anchor is unwrapped. -/
def Node.linkClean : Node → Forest
  | .text s => .cons (.text s) .nil
  | .elem n a cs =>
    if n = "a" then
      match getAttr a "href" with
      | some h => .cons (.elem n [("href", h)] (Forest.linkClean cs)) .nil
      | none => Forest.linkClean cs
    else .cons (.elem n a (Forest.linkClean cs)) .nil
/-- Stage 8 over a forest. -/
def Forest.linkClean : Forest → Forest
  | .nil => .nil
  | .cons x xs => Forest.append (Node.linkClean x) (Forest.linkClean xs)
end

mutual
/-- Stage 9: remove empty elements (source lines 500-508): an element
that is not img/br/hr, has empty stripped text and no img/br/hr
descendant is decomposed. -/
def Node.emptySweep : Node → Forest
  | .text s => .cons (.text s) .nil
  | .elem n a cs =>
    if ¬ ["img", "br", "hr"].contains n ∧ Forest.getTextStrip cs = "" ∧
        ¬ Forest.hasElemIn ["img", "br", "hr"] cs then .nil
    else .cons (.elem n a (Forest.emptySweep cs)) .nil
/-- Stage 9 over a forest. -/
def Forest.emptySweep : Forest → Forest
  | .nil => .nil
  | .cons x xs => Forest.append (Node.emptySweep x) (Forest.emptySweep xs)
end

/-! ### Serialization: the str(soup) model

BeautifulSoup with the html parsing backend serializes with the
minimal formatter: the characters ampersand, less-than and
greater-than are entity-escaped in text and in attribute values,
attribute values are double-quoted, and void elements are rendered
self-closing. -/

/-- Entity escaping performed by the minimal output formatter. -/
def escMinimal (s : String) : String :=
  String.mk (s.data.flatMap fun c =>
    if c = '&' then "&amp;".data
    else if c = '<' then "&lt;".data
    else if c = '>' then "&gt;".data
    else [c])

/-- The empty-element (void) tag names of the html tree builder. -/
def voidTags : List String :=
  ["area", "base", "br", "col", "embed", "hr", "img", "input",
   "keygen", "link", "menuitem", "meta", "param", "source",
   "track", "wbr"]

/-- Render an attribute list. -/
def renderAttrs : List (String × String) → String
  | [] => ""
  | (k, v) :: rest => " " ++ k ++ "=\"" ++ escMinimal v ++ "\"" ++ renderAttrs rest

mutual
/-- Serialize one node as str does on a BeautifulSoup tree. -/
def Node.render : Node → String
  | .text s => escMinimal s
  | .elem n a cs =>
    if voidTags.contains n then "<" ++ n ++ renderAttrs a ++ "/>"
    else "<" ++ n ++ renderAttrs a ++ ">" ++ Forest.render cs ++ "</" ++ n ++ ">"
/-- Serialize a forest (concatenation of its nodes). -/
def Forest.render : Forest → String
  | .nil => ""
  | .cons x xs => Node.render x ++ Forest.render xs
end

/-! ### The regular-expression substitutions of stage 10

The five re.sub calls of source lines 512-516 use patterns built from
literals, the whitespace class, an optional slash, and greedy
one-or-more repetitions.  They are embedded by a tiny matcher whose
candidate lists enumerate remainders in exactly the backtracking
priority order of the Python engine (greedy alternatives first), so
that the first full candidate coincides with the match Python finds. -/

/-- One atom of the patterns used by clean_wix_content. -/
inductive RAtom where
  | lit (cs : List Char)
  | wsStar
  | optSlash
  | chPlus (c : Char)

/-- Remainders after consuming zero or more whitespace characters,
greedy (longest) first. -/
def wsRems : List Char → List (List Char)
  | [] => [[]]
  | c :: cs => if pyIsSpace c then wsRems cs ++ [c :: cs] else [c :: cs]

/-- Remainders after consuming one or more copies of a character,
greedy first. -/
def plusRems (c : Char) : List Char → List (List Char)
  | [] => []
  | x :: xs => if x = c then plusRems c xs ++ [xs] else []

/-- Remainders offered by one atom, in backtracking priority order. -/
def atomRems : RAtom → List Char → List (List Char)
  | .lit p, l => if p.isPrefixOf l then [l.drop p.length] else []
  | .wsStar, l => wsRems l
  | .optSlash, l =>
    match l with
    | '/' :: rest => [rest, '/' :: rest]
    | _ => [l]
  | .chPlus c, l => plusRems c l

/-- Remainders after matching a whole sequence of atoms, in
backtracking priority order. -/
def seqRems : List RAtom → List Char → List (List Char)
  | [], l => [l]
  | a :: rest, l => (atomRems a l).flatMap (seqRems rest)

/-- The re.sub scan: at every position try the pattern; on a match
(the first candidate, which is the one the backtracking engine
returns) emit the replacement and continue after the matched text.
The patterns used all contain a mandatory literal, so a match always
consumes at least one character; the length guard makes the
definition total. -/
def subGo (pat : List RAtom) (repl : List Char) : Nat → List Char → List Char
  | 0, l => l
  | _ + 1, [] => []
  | fuel + 1, c :: cs =>
    match (seqRems pat (c :: cs)).head? with
    | some rem =>
      if rem.length < cs.length + 1 then repl ++ subGo pat repl fuel rem
      else c :: subGo pat repl fuel cs
    | none => c :: subGo pat repl fuel cs

/-- Model of re.sub for the patterns of stage 10. -/
def reSub (pat : List RAtom) (repl : String) (s : String) : String :=
  String.mk (subGo pat repl.data s.data.length s.data)

/-- Pattern of source line 512: an empty span. -/
def patEmptySpan : List RAtom :=
  [.lit "<span>".data, .wsStar, .lit "</span>".data]

/-- The br tag pattern used inside lines 513-514. -/
def patBr : List RAtom := [.lit "<br".data, .wsStar, .optSlash, .lit ">".data]

/-- Pattern of source line 513: a span wrapping only a line break. -/
def patSpanBr : List RAtom :=
  [.lit "<span>".data, .wsStar] ++ patBr ++ [.wsStar, .lit "</span>".data]

/-- Pattern of source line 514: three br tags, the final
greater-than-sign carrying the one-or-more repetition exactly as the
source regular expression has it. -/
def patTripleBr : List RAtom :=
  patBr ++ [.wsStar] ++ patBr ++
  [.wsStar, .lit "<br".data, .wsStar, .optSlash, .chPlus '>']

/-- Pattern of source line 515: three or more newlines separated by
whitespace. -/
def patTripleNl : List RAtom :=
  [.lit "\n".data, .wsStar, .lit "\n".data, .wsStar, .chPlus '\n']

/-- Pattern of source line 516: an empty paragraph. -/
def patEmptyP : List RAtom := [.lit "<p>".data, .wsStar, .lit "</p>".data]

/-- Stage 10: the five substitutions followed by the final strip
(source lines 511-518). -/
def stringPost (s : String) : String :=
  pyStrip
    (reSub patEmptyP ""
      (reSub patTripleNl "\n\n"
        (reSub patTripleBr "<br /><br />"
          (reSub patSpanBr "<br />"
            (reSub patEmptySpan "" s)))))

/-! ### The parse model

clean_wix_content re-parses its string argument with BeautifulSoup
over the html parsing backend before rewriting it.  The fragment
parser below models that backend on the fragment language the
program handles: tags with double- or single-quoted attribute
values, self-closing tags, the HTML void elements, character data,
and the common named character references.  Tag and attribute names
are lower-cased as the backend does, unmatched end tags are ignored,
and elements left open at the end of input are closed there. -/

/-- Decode the leading named character references of a text run. -/
def decodeEntities : Nat → List Char → List Char
  | 0, l => l
  | _ + 1, [] => []
  | fuel + 1, c :: cs =>
    if c = '&' then
      if "amp;".data.isPrefixOf cs then '&' :: decodeEntities fuel (cs.drop 4)
      else if "lt;".data.isPrefixOf cs then '<' :: decodeEntities fuel (cs.drop 3)
      else if "gt;".data.isPrefixOf cs then '>' :: decodeEntities fuel (cs.drop 3)
      else if "quot;".data.isPrefixOf cs then '"' :: decodeEntities fuel (cs.drop 5)
      else if "nbsp;".data.isPrefixOf cs then '\xa0' :: decodeEntities fuel (cs.drop 5)
      else c :: decodeEntities fuel cs
    else c :: decodeEntities fuel cs

/-- Valid continuation characters of a tag name. -/
def isNameChar (c : Char) : Bool :=
  c.isAlpha || c.isDigit || c = '-' || c = '_' || c = ':' || c = '.'

/-- Valid characters of an attribute name. -/
def isAttrNameChar (c : Char) : Bool :=
  ¬ (pyIsSpace c || c = '=' || c = '>' || c = '/')

/-- One token of the fragment language. -/
inductive Tok where
  | tText (s : String)
  | tOpen (name : String) (attrs : List (String × String)) (selfClosing : Bool)
  | tClose (name : String)

/-- Parse the attribute region of a start tag, returning the
attributes, whether the tag is written self-closing, and the input
after the closing greater-than sign. -/
def parseAttrsGo : Nat → List Char → List (String × String) × Bool × List Char
  | 0, l => ([], false, l)
  | _ + 1, [] => ([], false, [])
  | fuel + 1, c :: cs =>
    if pyIsSpace c then parseAttrsGo fuel cs
    else if c = '>' then ([], false, cs)
    else if c = '/' then
      match cs with
      | '>' :: rest => ([], true, rest)
      | _ => parseAttrsGo fuel cs
    else
      let aname := (c :: cs).takeWhile isAttrNameChar
      let afterName := (c :: cs).drop aname.length
      let afterWs := dropWs afterName
      match afterWs with
      | '=' :: rest =>
        let rest := dropWs rest
        match rest with
        | '"' :: vr =>
          let v := vr.takeWhile (· ≠ '"')
          let r := parseAttrsGo fuel (vr.drop (v.length + 1))
          ((pyLower (String.mk aname), String.mk (decodeEntities v.length v)) :: r.1, r.2.1, r.2.2)
        | '\'' :: vr =>
          let v := vr.takeWhile (· ≠ '\'')
          let r := parseAttrsGo fuel (vr.drop (v.length + 1))
          ((pyLower (String.mk aname), String.mk (decodeEntities v.length v)) :: r.1, r.2.1, r.2.2)
        | _ =>
          let v := rest.takeWhile fun c => ¬ (pyIsSpace c || c = '>')
          let r := parseAttrsGo fuel (rest.drop v.length)
          ((pyLower (String.mk aname), String.mk (decodeEntities v.length v)) :: r.1, r.2.1, r.2.2)
      | _ =>
        let r := parseAttrsGo fuel afterWs
        ((pyLower (String.mk aname), "") :: r.1, r.2.1, r.2.2)

/-- Tokenize a fragment. -/
def tokGo : Nat → List Char → List Tok
  | 0, _ => []
  | _ + 1, [] => []
  | fuel + 1, '<' :: rest =>
    match rest with
    | '/' :: r2 =>
      let nm := r2.takeWhile isNameChar
      let after := r2.drop nm.length
      let afterGt := (after.dropWhile (· ≠ '>')).drop 1
      if nm = [] then .tText "<" :: tokGo fuel rest
      else .tClose (pyLower (String.mk nm)) :: tokGo fuel afterGt
    | c :: _ =>
      if c.isAlpha then
        let nm := rest.takeWhile isNameChar
        let afterNm := rest.drop nm.length
        let r := parseAttrsGo afterNm.length afterNm
        .tOpen (pyLower (String.mk nm)) r.1 r.2.1 :: tokGo fuel r.2.2
      else .tText "<" :: tokGo fuel rest
    | [] => [.tText "<"]
  | fuel + 1, c :: cs =>
    let run := (c :: cs).takeWhile (· ≠ '<')
    .tText (String.mk (decodeEntities run.length run)) :: tokGo fuel ((c :: cs).drop run.length)

/-- A stack entry of the tree builder: an open element together with
its already-built children in reverse order. -/
def StackEntry : Type := String × List (String × String) × List Node

/-- Attach a finished node to the enclosing open element, or to the
top level when the stack is empty. -/
def addNode (n : Node) : List StackEntry → List Node → List StackEntry × List Node
  | [], base => ([], n :: base)
  | (nm, at_, acc) :: rest, base => ((nm, at_, n :: acc) :: rest, base)

/-- Close a run of open elements from the top of the stack downward,
each closed element becoming the last child of the one below it; the
result is the element the bottom entry of the run closes into. -/
def collapseEntries : List StackEntry → Option Node → Option Node
  | [], pending => pending
  | (nm, at_, acc) :: rest, pending =>
    let acc := match pending with | some n => n :: acc | none => acc
    collapseEntries rest (some (.elem nm at_ (Forest.ofList acc.reverse)))

/-- Split the stack at the first entry with the given name, the named
entry included in the first part. -/
def splitAtName (name : String) : List StackEntry → Option (List StackEntry × List StackEntry)
  | [] => none
  | e :: rest =>
    if e.1 = name then some ([e], rest)
    else (splitAtName name rest).map fun pq => (e :: pq.1, pq.2)

/-- Close open elements up to and including the first one with the
given name (the tree builder pops intervening elements). -/
def popThrough (name : String) (stack : List StackEntry) (base : List Node) :
    List StackEntry × List Node :=
  match splitAtName name stack with
  | none => (stack, base)
  | some (pre, post) =>
    match collapseEntries pre none with
    | some n => addNode n post base
    | none => (post, base)

/-- Whether an element with the given name is open. -/
def hasOpen (name : String) (stack : List StackEntry) : Bool :=
  stack.any fun e => e.1 = name

/-- Close every element still open at end of input. -/
def closeAll (stack : List StackEntry) (base : List Node) : List Node :=
  match collapseEntries stack none with
  | some n => n :: base
  | none => base

/-- Drive the tree builder over the token stream. -/
def buildGo : List Tok → List StackEntry → List Node → List Node
  | [], stack, base => closeAll stack base
  | .tText s :: toks, stack, base =>
    let r := addNode (.text s) stack base
    buildGo toks r.1 r.2
  | .tOpen nm at_ sc :: toks, stack, base =>
    if sc || voidTags.contains nm then
      let r := addNode (.elem nm at_ .nil) stack base
      buildGo toks r.1 r.2
    else buildGo toks ((nm, at_, []) :: stack) base
  | .tClose nm :: toks, stack, base =>
    if hasOpen nm stack then
      let r := popThrough nm stack base
      buildGo toks r.1 r.2
    else buildGo toks stack base

/-- Parse a fragment string into a forest, modelling the
BeautifulSoup constructor used throughout the program. -/
def parseFragment (s : String) : Forest :=
  Forest.ofList (buildGo (tokGo s.data.length s.data) [] []).reverse

/-! ### clean_wix_content assembled -/

/-- The full clean_wix_content pipeline of source lines 395-518: the
empty-input shortcut, parse, the nine tree stages in source order
(div collapse capped at 15 passes), serialization and the stage 10
string post-processing. -/
def clean_wix_content (content : String) : String :=
  if content = "" then ""
  else
    stringPost (Forest.render
      (Forest.emptySweep
        (Forest.linkClean
          (Forest.removeEmptyPs
            (Forest.spanClean
              (divLoop 15
                (Forest.unwrapFigures
                  (Forest.stripAttrs
                    (Forest.removeSvgs
                      (Forest.removeJunk (parseFragment content)))))))))))

/-! ### The date normalizer parse_date

parse_date (source lines 351-368) tries eight strptime patterns in a
fixed order and returns the isoformat rendering of the first
successful parse.  Each directive below reproduces the digit
alternations of the CPython strptime regular expressions (so one- and
two-digit months and days are accepted exactly as there), literals
match case-insensitively, whitespace in a pattern matches a
nonempty whitespace run, the whole string must be consumed, and the
calendar validation of the datetime constructor is applied to the
first full match. -/

/-- The result of one strptime call. -/
structure Dt where
  year : Nat
  month : Nat
  day : Nat
  hour : Nat
  minute : Nat
  second : Nat
  usec : Nat
deriving DecidableEq

/-- Numeric value of a digit character. -/
def digitVal (c : Char) : Nat := c.toNat - 48

/-- Directive Y: exactly four digits. -/
def pY : List Char → List (Nat × List Char)
  | a :: b :: c :: d :: rest =>
    if a.isDigit ∧ b.isDigit ∧ c.isDigit ∧ d.isDigit then
      [(digitVal a * 1000 + digitVal b * 100 + digitVal c * 10 + digitVal d, rest)]
    else []
  | _ => []

/-- Directive m: the alternation 1[0-2], 0[1-9], [1-9] in that
priority order. -/
def pm : List Char → List (Nat × List Char)
  | '1' :: c :: rest =>
    (if '0' ≤ c ∧ c ≤ '2' then [(10 + digitVal c, rest)] else []) ++ [(1, c :: rest)]
  | '0' :: c :: rest =>
    if '1' ≤ c ∧ c ≤ '9' then [(digitVal c, rest)] else []
  | c :: rest => if '1' ≤ c ∧ c ≤ '9' then [(digitVal c, rest)] else []
  | [] => []

/-- Directive d: the alternation 3[01], [12] digit, 0[1-9], [1-9]. -/
def pd : List Char → List (Nat × List Char)
  | '3' :: c :: rest =>
    (if c = '0' ∨ c = '1' then [(30 + digitVal c, rest)] else []) ++ [(3, c :: rest)]
  | '0' :: c :: rest =>
    if '1' ≤ c ∧ c ≤ '9' then [(digitVal c, rest)] else []
  | a :: c :: rest =>
    if (a = '1' ∨ a = '2') ∧ c.isDigit then
      [(digitVal a * 10 + digitVal c, rest)] ++
        (if '1' ≤ a ∧ a ≤ '9' then [(digitVal a, c :: rest)] else [])
    else if '1' ≤ a ∧ a ≤ '9' then [(digitVal a, c :: rest)] else []
  | c :: rest => if '1' ≤ c ∧ c ≤ '9' then [(digitVal c, rest)] else []
  | [] => []

/-- Directive H: the alternation 2[0-3], [0-1] digit, digit. -/
def pH : List Char → List (Nat × List Char)
  | '2' :: c :: rest =>
    (if '0' ≤ c ∧ c ≤ '3' then [(20 + digitVal c, rest)] else []) ++ [(2, c :: rest)]
  | a :: c :: rest =>
    if (a = '0' ∨ a = '1') ∧ c.isDigit then
      [(digitVal a * 10 + digitVal c, rest)] ++
        (if a.isDigit then [(digitVal a, c :: rest)] else [])
    else if a.isDigit then [(digitVal a, c :: rest)] else []
  | c :: rest => if c.isDigit then [(digitVal c, rest)] else []
  | [] => []

/-- Directive M: the alternation [0-5] digit, digit. -/
def pMin : List Char → List (Nat × List Char)
  | a :: c :: rest =>
    if '0' ≤ a ∧ a ≤ '5' ∧ c.isDigit then
      [(digitVal a * 10 + digitVal c, rest)] ++
        (if a.isDigit then [(digitVal a, c :: rest)] else [])
    else if a.isDigit then [(digitVal a, c :: rest)] else []
  | c :: rest => if c.isDigit then [(digitVal c, rest)] else []
  | [] => []

/-- Directive S: the alternation 6[0-1], [0-5] digit, digit. -/
def pS : List Char → List (Nat × List Char)
  | '6' :: c :: rest =>
    (if c = '0' ∨ c = '1' then [(60 + digitVal c, rest)] else []) ++ [(6, c :: rest)]
  | a :: c :: rest =>
    if '0' ≤ a ∧ a ≤ '5' ∧ c.isDigit then
      [(digitVal a * 10 + digitVal c, rest)] ++
        (if a.isDigit then [(digitVal a, c :: rest)] else [])
    else if a.isDigit then [(digitVal a, c :: rest)] else []
  | c :: rest => if c.isDigit then [(digitVal c, rest)] else []
  | [] => []

/-- Candidates for directive f: one to six digits, greedy first; the
value is right-padded with zeros to microseconds. -/
def pfGo : Nat → Nat → List Char → List (Nat × List Char)
  | _, _, [] => []
  | 0, _, _ => []
  | k + 1, acc, c :: rest =>
    if c.isDigit then
      pfGo k (acc * 10 + digitVal c) rest ++ [(acc * 10 + digitVal c, rest)]
    else []

/-- Pad a directive f value of the given digit count to microseconds. -/
def padUsec (v : Nat) (digits : Nat) : Nat := v * 10 ^ (6 - digits)

/-- Directive f with the padding applied, greedy first. -/
def pf (l : List Char) : List (Nat × List Char) :=
  let run := (l.takeWhile Char.isDigit).length
  (List.range' 1 (min run 6)).reverse.flatMap fun k =>
    [(padUsec ((l.take k).foldl (fun a c => a * 10 + digitVal c) 0) k, l.drop k)]

/-- A case-insensitive literal character. -/
def pLit (c : Char) : List Char → List (List Char)
  | x :: rest => if pyLowerChar x = pyLowerChar c then [rest] else []
  | [] => []

/-- A nonempty whitespace run (whitespace in a strptime pattern),
greedy first. -/
def pWsPlus (l : List Char) : List (List Char) :=
  let run := (l.takeWhile pyIsSpace).length
  (List.range' 1 run).reverse.map fun k => l.drop k

/-- Month-name directive over a name table (case-insensitive). -/
def pMonthName (tbl : List (String × Nat)) (l : List Char) : List (Nat × List Char) :=
  tbl.flatMap fun nv =>
    if (nv.1.data.map pyLowerChar).isPrefixOf (l.map pyLowerChar) then
      [(nv.2, l.drop nv.1.data.length)]
    else []

/-- English month names for directive B. -/
def fullMonths : List (String × Nat) :=
  [("January", 1), ("February", 2), ("March", 3), ("April", 4),
   ("May", 5), ("June", 6), ("July", 7), ("August", 8),
   ("September", 9), ("October", 10), ("November", 11), ("December", 12)]

/-- English month abbreviations for directive b. -/
def abbrevMonths : List (String × Nat) :=
  [("Jan", 1), ("Feb", 2), ("Mar", 3), ("Apr", 4), ("May", 5), ("Jun", 6),
   ("Jul", 7), ("Aug", 8), ("Sep", 9), ("Oct", 10), ("Nov", 11), ("Dec", 12)]

/-- Pattern Y-m-dTH:M:S (the local timestamp). -/
def fmtLocal (l : List Char) : List (Dt × List Char) :=
  (pY l).flatMap fun yl =>
  (pLit '-' yl.2).flatMap fun l =>
  (pm l).flatMap fun ml =>
  (pLit '-' ml.2).flatMap fun l =>
  (pd l).flatMap fun dl =>
  (pLit 'T' dl.2).flatMap fun l =>
  (pH l).flatMap fun hl =>
  (pLit ':' hl.2).flatMap fun l =>
  (pMin l).flatMap fun nl =>
  (pLit ':' nl.2).flatMap fun l =>
  (pS l).map fun sl =>
  (⟨yl.1, ml.1, dl.1, hl.1, nl.1, sl.1, 0⟩, sl.2)

/-- Pattern Y-m-dTH:M:S.fZ (the fractional-second UTC timestamp). -/
def fmtFracUTC (l : List Char) : List (Dt × List Char) :=
  (fmtLocal l).flatMap fun dtl =>
  (pLit '.' dtl.2).flatMap fun l =>
  (pf l).flatMap fun fl =>
  (pLit 'Z' fl.2).map fun l =>
  ({ dtl.1 with usec := fl.1 }, l)

/-- Pattern Y-m-dTH:M:SZ (the second-precision UTC timestamp). -/
def fmtSecUTC (l : List Char) : List (Dt × List Char) :=
  (fmtLocal l).flatMap fun dtl =>
  (pLit 'Z' dtl.2).map fun l => (dtl.1, l)

/-- Pattern Y-m-d (the calendar date). -/
def fmtCalendar (l : List Char) : List (Dt × List Char) :=
  (pY l).flatMap fun yl =>
  (pLit '-' yl.2).flatMap fun l =>
  (pm l).flatMap fun ml =>
  (pLit '-' ml.2).flatMap fun l =>
  (pd l).map fun dl =>
  (⟨yl.1, ml.1, dl.1, 0, 0, 0, 0⟩, dl.2)

/-- Pattern B d, Y (the long-month-name date). -/
def fmtLongMonth (l : List Char) : List (Dt × List Char) :=
  (pMonthName fullMonths l).flatMap fun ml =>
  (pWsPlus ml.2).flatMap fun l =>
  (pd l).flatMap fun dl =>
  (pLit ',' dl.2).flatMap fun l =>
  (pWsPlus l).flatMap fun l =>
  (pY l).map fun yl =>
  (⟨yl.1, ml.1, dl.1, 0, 0, 0, 0⟩, yl.2)

/-- Pattern b d, Y (the abbreviated-month date). -/
def fmtAbbrevMonth (l : List Char) : List (Dt × List Char) :=
  (pMonthName abbrevMonths l).flatMap fun ml =>
  (pWsPlus ml.2).flatMap fun l =>
  (pd l).flatMap fun dl =>
  (pLit ',' dl.2).flatMap fun l =>
  (pWsPlus l).flatMap fun l =>
  (pY l).map fun yl =>
  (⟨yl.1, ml.1, dl.1, 0, 0, 0, 0⟩, yl.2)

/-- Pattern m/d/Y (the US slash date). -/
def fmtUSSlash (l : List Char) : List (Dt × List Char) :=
  (pm l).flatMap fun ml =>
  (pLit '/' ml.2).flatMap fun l =>
  (pd l).flatMap fun dl =>
  (pLit '/' dl.2).flatMap fun l =>
  (pY l).map fun yl =>
  (⟨yl.1, ml.1, dl.1, 0, 0, 0, 0⟩, yl.2)

/-- Pattern d/m/Y (the EU slash date). -/
def fmtEUSlash (l : List Char) : List (Dt × List Char) :=
  (pd l).flatMap fun dl =>
  (pLit '/' dl.2).flatMap fun l =>
  (pm l).flatMap fun ml =>
  (pLit '/' ml.2).flatMap fun l =>
  (pY l).map fun yl =>
  (⟨yl.1, ml.1, dl.1, 0, 0, 0, 0⟩, yl.2)

/-- Gregorian leap-year test. -/
def isLeap (y : Nat) : Bool :=
  y % 4 = 0 && (y % 100 ≠ 0 || y % 400 = 0)

/-- Days in a month. -/
def daysInMonth (y m : Nat) : Nat :=
  if m = 2 then (if isLeap y then 29 else 28)
  else if [4, 6, 9, 11].contains m then 30
  else 31

/-- The validation performed by the datetime constructor on the
matched fields. -/
def validDt (dt : Dt) : Bool :=
  1 ≤ dt.year && dt.day ≤ daysInMonth dt.year dt.month && dt.second ≤ 59

/-- Run one strptime pattern: the first full match of the
backtracking order, then the constructor validation. -/
def runFmt (p : List Char → List (Dt × List Char)) (s : String) : Option Dt :=
  match ((p s.data).filter fun c => c.2 = []).head? with
  | none => none
  | some c => if validDt c.1 then some c.1 else none

/-- Left-pad a number with zeros to a width. -/
def padNum (width n : Nat) : String :=
  let d := toString n
  String.mk (List.replicate (width - d.length) '0') ++ d

/-- The isoformat rendering of a datetime (fractional part printed,
six digits, exactly when the microsecond field is nonzero). -/
def isoformat (dt : Dt) : String :=
  padNum 4 dt.year ++ "-" ++ padNum 2 dt.month ++ "-" ++ padNum 2 dt.day ++
  "T" ++ padNum 2 dt.hour ++ ":" ++ padNum 2 dt.minute ++ ":" ++ padNum 2 dt.second ++
  (if dt.usec = 0 then "" else "." ++ padNum 6 dt.usec)

/-- The format list of source lines 357-360, in source order. -/
def dateFormats : List (List Char → List (Dt × List Char)) :=
  [fmtFracUTC, fmtSecUTC, fmtLocal, fmtCalendar,
   fmtLongMonth, fmtAbbrevMonth, fmtUSSlash, fmtEUSlash]

/-- First successful pattern of a list. -/
def firstParse : List (List Char → List (Dt × List Char)) → String → Option Dt
  | [], _ => none
  | f :: fs, s =>
    match runFmt f s with
    | some dt => some dt
    | none => firstParse fs s

/-- parse_date of source lines 351-368: empty input returns absence,
otherwise the input is stripped and the formats are tried in order,
the first success rendered with isoformat. -/
def parse_date (date_str : String) : Option String :=
  if date_str = "" then none
  else (firstParse dateFormats (pyStrip date_str)).map isoformat

/-! ### Field extraction

The extractors (source lines 298-388) walk ordered selector chains
with select_one, which returns the first matching element in document
(pre-)order. -/

/-- The selector forms used by the extractor chains. -/
inductive Sel where
  | tagSel (name : String)
  | clsSel (cls : String)
  | attrSel (key value : String)
  | tagHasAttr (name key : String)
  | tagAttrSel (name key value : String)
deriving DecidableEq

/-- Split a class attribute value on whitespace, as the tree builder
does for multi-valued class attributes. -/
def splitWsGo : List Char → List Char → List String
  | [], acc => if acc.isEmpty then [] else [String.mk acc.reverse]
  | c :: cs, acc =>
    if pyIsSpace c then
      if acc.isEmpty then splitWsGo cs [] else String.mk acc.reverse :: splitWsGo cs []
    else splitWsGo cs (c :: acc)

/-- The class tokens of an element. -/
def classTokens (attrs : List (String × String)) : List String :=
  splitWsGo (attrD attrs "class").data []

/-- Whether an element with the given name and attributes matches a
selector. -/
def selMatches (sel : Sel) (n : String) (attrs : List (String × String)) : Bool :=
  match sel with
  | .tagSel nm => n = nm
  | .clsSel c => (classTokens attrs).contains c
  | .attrSel k v => attrD attrs k = v
  | .tagHasAttr nm k => n = nm && (getAttr attrs k).isSome
  | .tagAttrSel nm k v => n = nm && attrD attrs k = v

mutual
/-- select_one on a node: the node itself when it matches, otherwise
the first match among its descendants. -/
def Node.selectOne (sel : Sel) : Node → Option Node
  | .text _ => none
  | .elem n a cs =>
    if selMatches sel n a then some (.elem n a cs) else Forest.selectOne sel cs
/-- select_one on a forest: first match in document order. -/
def Forest.selectOne (sel : Sel) : Forest → Option Node
  | .nil => none
  | .cons x xs =>
    match Node.selectOne sel x with
    | some r => some r
    | none => Forest.selectOne sel xs
end

/-- The title selector chain of source lines 300-303, in order. -/
def title_selectors : List Sel :=
  [.tagSel "h1", .tagSel "h2", .clsSel "post-title",
   .attrSel "data-testid" "post-title", .tagSel "title",
   .tagAttrSel "meta" "property" "og:title"]

/-- The open-graph meta selector that extract_title treats
specially. -/
def ogTitleSel : Sel := .tagAttrSel "meta" "property" "og:title"

/-- The blocklist test of source line 314: the lower-cased title
starts with home, blog or menu. -/
def titleBlocked (title : String) : Bool :=
  pyStartsWith (pyLower title) "home" || pyStartsWith (pyLower title) "blog" ||
    pyStartsWith (pyLower title) "menu"

/-- The chain walk of extract_title (source lines 305-317): the meta
selector returns its content attribute unfiltered; the text selectors
return their stripped text when it is nonempty, longer than 3
characters and not blocklisted; exhaustion yields the sentinel. -/
def extractTitleGo : List Sel → Forest → String
  | [], _ => "Untitled Post"
  | sel :: rest, doc =>
    if sel = ogTitleSel then
      match Forest.selectOne sel doc with
      | some (.elem _ a _) =>
        if attrD a "content" ≠ "" then pyStrip (attrD a "content")
        else extractTitleGo rest doc
      | _ => extractTitleGo rest doc
    else
      match Forest.selectOne sel doc with
      | some el =>
        let t := pyStrip (Node.getText el)
        if t ≠ "" then
          if t.length > 3 ∧ ¬ titleBlocked t then t else extractTitleGo rest doc
        else extractTitleGo rest doc
      | none => extractTitleGo rest doc

/-- extract_title of source lines 298-317. -/
def extract_title (doc : Forest) : String := extractTitleGo title_selectors doc

/-- The date selector chain of source lines 321-324, in order. -/
def date_selectors : List Sel :=
  [.tagHasAttr "time" "datetime", .tagSel "time", .clsSel "post-date",
   .clsSel "blog-post-date", .clsSel "date", .attrSel "data-testid" "post-date",
   .tagAttrSel "meta" "property" "article:published_time"]

/-- The raw value read from a matched date element (source line 329):
datetime attribute, else content attribute, else stripped text, the
or-chain skipping empty values. -/
def dateValOf (el : Node) : String :=
  match el with
  | .text s => pyStrip s
  | .elem _ a _ =>
    if attrD a "datetime" ≠ "" then attrD a "datetime"
    else if attrD a "content" ≠ "" then attrD a "content"
    else pyStrip (Node.getText el)

/-- The chain walk of extract_date (source lines 326-336): on the
first selector whose match yields a nonempty raw value, return the
parsed date if parse_date succeeds and the raw value otherwise;
exhaustion yields the empty string. -/
def extractDateGo : List Sel → Forest → String
  | [], _ => ""
  | sel :: rest, doc =>
    match Forest.selectOne sel doc with
    | some el =>
      let v := dateValOf el
      if v ≠ "" then
        match parse_date v with
        | some iso => iso
        | none => v
      else extractDateGo rest doc
    | none => extractDateGo rest doc

/-- extract_date of source lines 319-336. -/
def extract_date (doc : Forest) : String := extractDateGo date_selectors doc

/-- The first raw date value the selector chain finds, before
normalization (the value of date_val at source line 329 on the
selector that wins). -/
def dateRawGo : List Sel → Forest → Option String
  | [], _ => none
  | sel :: rest, doc =>
    match Forest.selectOne sel doc with
    | some el =>
      let v := dateValOf el
      if v ≠ "" then some v else dateRawGo rest doc
    | none => dateRawGo rest doc

/-- The raw candidate of the date chain, absent when every selector
fails to match or every match yields an empty value. -/
def dateRaw (doc : Forest) : Option String := dateRawGo date_selectors doc

/-- The category selector chain of source lines 340-342. -/
def category_selectors : List Sel :=
  [.clsSel "post-category", .clsSel "category", .clsSel "tag",
   .attrSel "data-testid" "post-category"]

/-- The chain walk of extract_category (source lines 344-349). -/
def extractCategoryGo : List Sel → Forest → String
  | [], _ => "Uncategorized"
  | sel :: rest, doc =>
    match Forest.selectOne sel doc with
    | some el =>
      let t := pyStrip (Node.getText el)
      if t ≠ "" then t else extractCategoryGo rest doc
    | none => extractCategoryGo rest doc

/-- extract_category of source lines 338-349. -/
def extract_category (doc : Forest) : String := extractCategoryGo category_selectors doc

/-- The content selector chain of source lines 372-375, in order. -/
def content_selectors : List Sel :=
  [.clsSel "post-content", .clsSel "blog-post-content", .clsSel "rich-text",
   .tagSel "article", .clsSel "content", .tagSel "main",
   .attrSel "data-testid" "post-content"]

/-- The unwanted elements extract_content removes from a candidate
subtree before measuring it (source line 381; note button is not in
this list, unlike stage 1 of clean_wix_content). -/
def contentJunkTags : List String := ["script", "style", "nav", "header", "footer"]

/-- Remove unwanted descendants of a matched content element. -/
def scrubContentElem (el : Node) : Node :=
  match el with
  | .text s => .text s
  | .elem n a cs => .elem n a (Forest.removeNamed contentJunkTags cs)

/-- The chain walk of extract_content (source lines 377-388): a
candidate is serialized (its own tag included) after the unwanted
element removal, stripped, and accepted only when longer than 100
characters; exhaustion yields the empty string. -/
def extractContentGo : List Sel → Forest → String
  | [], _ => ""
  | sel :: rest, doc =>
    match Forest.selectOne sel doc with
    | some el =>
      let content := pyStrip (Node.render (scrubContentElem el))
      if content.length > 100 then content else extractContentGo rest doc
    | none => extractContentGo rest doc

/-- extract_content of source lines 370-388. -/
def extract_content (doc : Forest) : String := extractContentGo content_selectors doc

/-! ### scrape_post: record assembly and the acceptance gate -/

/-- The post record assembled at source lines 279-285. -/
structure PostData where
  url : String
  title : String
  publish_date : String
  category : String
  content : String

/-- The record scrape_post builds from a parsed document. -/
def scrapePostData (url : String) (doc : Forest) : PostData :=
  { url := url
    title := extract_title doc
    publish_date := extract_date doc
    category := extract_category doc
    content := extract_content doc }

/-- The acceptance gate of source line 287: non-sentinel title and a
raw body longer than 100 characters. -/
def acceptGate (p : PostData) : Bool :=
  p.title ≠ "Untitled Post" && p.content.length > 100

/-- The pure core of scrape_post (source lines 254-296): assemble the
record from the parsed document and keep it only when the gate
passes. -/
def scrape_post (url : String) (doc : Forest) : Option PostData :=
  let p := scrapePostData url doc
  if acceptGate p then some p else none

/-! ### The export serializer create_wordpress_xml

Source lines 520-592.  The wall-clock time the source reads with
datetime.now is passed as a parameter. -/

/-- The title escaping of source line 548: ampersand, less-than and
greater-than replaced in that order. -/
def escapeTitleXml (t : String) : String :=
  pyReplace (pyReplace (pyReplace t "&" "&amp;") "<" "&lt;") ">" "&gt;"

/-- The character class kept by the slug derivation (the complement
of the deleted class of source line 565). -/
def slugKeep (c : Char) : Bool :=
  ('a' ≤ c && c ≤ 'z') || ('A' ≤ c && c ≤ 'Z') || ('0' ≤ c && c ≤ '9') ||
    pyIsSpace c || c = '-'

/-- Replace every maximal whitespace run by a single hyphen (the
substitution of source line 566); the flag records whether the
previous character was whitespace. -/
def collapseWsGo : Bool → List Char → List Char
  | _, [] => []
  | prevWs, c :: cs =>
    if pyIsSpace c then
      if prevWs then collapseWsGo true cs else '-' :: collapseWsGo true cs
    else c :: collapseWsGo false cs

/-- The slug derivation of source lines 565-566, applied to the
already entity-escaped title: lower-case, delete characters outside
the kept class, strip, collapse whitespace runs to hyphens, truncate
to 50 characters. -/
def slugOfEscaped (title : String) : String :=
  String.mk
    ((collapseWsGo false
      (pyStrip (String.mk ((pyLower title).data.filter slugKeep))).data).take 50)

/-- The slug the serializer emits for a record title (the title is
escaped at source line 548 before the slug is derived from it). -/
def makeSlug (rawTitle : String) : String :=
  slugOfEscaped (escapeTitleXml rawTitle)

/-- Day abbreviations for the strftime directive a, indexed by the
weekday (Monday zero). -/
def dayAbbrevs : List String := ["Mon", "Tue", "Wed", "Thu", "Fri", "Sat", "Sun"]

/-- Days before the first of a month within a year. -/
def daysBeforeMonth (y m : Nat) : Nat :=
  (List.range' 1 (m - 1)).foldl (fun a k => a + daysInMonth y k) 0

/-- Days between the proleptic Gregorian epoch (year one, January
first, a Monday) and a date. -/
def daysSinceEpoch (y m d : Nat) : Nat :=
  365 * (y - 1) + (y - 1) / 4 - (y - 1) / 100 + (y - 1) / 400 +
    daysBeforeMonth y m + (d - 1)

/-- The weekday of a datetime, Monday zero. -/
def weekday (dt : Dt) : Nat := daysSinceEpoch dt.year dt.month dt.day % 7

/-- Month abbreviations for the strftime directive b. -/
def monthAbbrevs : List String :=
  ["Jan", "Feb", "Mar", "Apr", "May", "Jun",
   "Jul", "Aug", "Sep", "Oct", "Nov", "Dec"]

/-- The pubDate rendering of source lines 541 and 573 (strftime with
day name, day, month name, year, time and a fixed offset). -/
def fmtRFC (dt : Dt) : String :=
  (dayAbbrevs.getD (weekday dt) "Mon") ++ ", " ++ padNum 2 dt.day ++ " " ++
    (monthAbbrevs.getD (dt.month - 1) "Jan") ++ " " ++ padNum 4 dt.year ++ " " ++
    padNum 2 dt.hour ++ ":" ++ padNum 2 dt.minute ++ ":" ++ padNum 2 dt.second ++
    " +0000"

/-- The post_date rendering of source line 564. -/
def fmtSQL (dt : Dt) : String :=
  padNum 4 dt.year ++ "-" ++ padNum 2 dt.month ++ "-" ++ padNum 2 dt.day ++ " " ++
    padNum 2 dt.hour ++ ":" ++ padNum 2 dt.minute ++ ":" ++ padNum 2 dt.second

/-- Read exactly two digits. -/
def twoDig : List Char → Option (Nat × List Char)
  | a :: b :: rest =>
    if a.isDigit ∧ b.isDigit then some (digitVal a * 10 + digitVal b, rest) else none
  | _ => none

/-- Read an exact run of digits of the given length. -/
def nDig : Nat → List Char → Option (Nat × List Char)
  | 0, l => some (0, l)
  | k + 1, c :: rest =>
    if c.isDigit then
      (nDig k rest).map fun vr => (digitVal c * 10 ^ k + vr.1, vr.2)
    else none
  | _ + 1, [] => none

/-- The optional fixed-offset suffix accepted by fromisoformat
(plus or minus, hours and minutes, optional seconds and fraction);
the offset is validated and discarded, matching how the later
strftime calls use only the local fields. -/
def isoOffsetOk : List Char → Bool
  | [] => true
  | sgn :: rest =>
    if sgn = '+' ∨ sgn = '-' then
      match twoDig rest with
      | some (_, ':' :: r2) =>
        match twoDig r2 with
        | some (_, []) => true
        | some (_, ':' :: r3) =>
          match twoDig r3 with
          | some (_, []) => true
          | some (_, '.' :: r4) =>
            let ds := r4.takeWhile Char.isDigit
            (ds.length = 3 ∨ ds.length = 6) ∧ r4.drop ds.length = []
          | _ => false
        | _ => false
      | _ => false
    else false

/-- The time-of-day part accepted by fromisoformat: hours, optional
minutes, optional seconds, optional fraction of three or six digits,
then an optional offset. -/
def isoTimePart (l : List Char) : Option (Nat × Nat × Nat × Nat) :=
  match twoDig l with
  | none => none
  | some (h, r) =>
    if h > 23 then none
    else
      match r with
      | [] => some (h, 0, 0, 0)
      | ':' :: r2 =>
        match twoDig r2 with
        | none => none
        | some (mi, r3) =>
          if mi > 59 then none
          else
            match r3 with
            | [] => some (h, mi, 0, 0)
            | ':' :: r4 =>
              match twoDig r4 with
              | none => none
              | some (sec, r5) =>
                if sec > 59 then none
                else
                  match r5 with
                  | [] => some (h, mi, sec, 0)
                  | '.' :: r6 =>
                    let ds := r6.takeWhile Char.isDigit
                    if (ds.length = 3 ∨ ds.length = 6) ∧ isoOffsetOk (r6.drop ds.length) then
                      let v := ds.foldl (fun a c => a * 10 + digitVal c) 0
                      some (h, mi, sec, if ds.length = 3 then v * 1000 else v)
                    else none
                  | rest => if isoOffsetOk rest then some (h, mi, sec, 0) else none
            | rest => if isoOffsetOk rest then some (h, mi, 0, 0) else none
      | rest => if isoOffsetOk rest then some (h, 0, 0, 0) else none

/-- Model of datetime.fromisoformat as the serializer uses it: a
strict YYYY-MM-DD date, then optionally a single separator character
and a time part. -/
def pyFromISO (s : String) : Option Dt :=
  match nDig 4 s.data with
  | some (y, '-' :: r1) =>
    (match twoDig r1 with
    | some (m, '-' :: r2) =>
      (match twoDig r2 with
      | some (d, rest) =>
        if 1 ≤ y ∧ 1 ≤ m ∧ m ≤ 12 ∧ 1 ≤ d ∧ d ≤ daysInMonth y m then
          match rest with
          | [] => some ⟨y, m, d, 0, 0, 0, 0⟩
          | _ :: timePart =>
            (isoTimePart timePart).map fun t =>
              ⟨y, m, d, t.1, t.2.1, t.2.2.1, t.2.2.2⟩
        else none
      | _ => none)
    | _ => none)
  | _ => none

/-- The per-item date resolution of source lines 552-562: an empty
publish date yields the wall-clock time; a value containing the
character T goes through fromisoformat with Z replaced by the zero
offset; any other value goes through the calendar-date strptime
pattern; every failure falls back to the wall-clock time. -/
def resolveItemDate (post_date : String) (now : Dt) : Dt :=
  if post_date ≠ "" then
    if post_date.data.contains 'T' then
      match pyFromISO (pyReplace post_date "Z" "+00:00") with
      | some dt => dt
      | none => now
    else
      match runFmt fmtCalendar post_date with
      | some dt => dt
      | none => now
  else now

/-- The part of an export item before the post identifier (source
lines 571-575 of the f-string layout). -/
def itemPre (title pubdate content : String) : String :=
  "\n    <item>\n        <title><![CDATA[" ++ title ++ "]]></title>\n        <pubDate>" ++
    pubdate ++
    "</pubDate>\n        <dc:creator><![CDATA[admin]]></dc:creator>\n        <content:encoded><![CDATA[" ++
    content ++ "]]></content:encoded>\n        "

/-- The part of an export item after the post identifier (source
lines 577-585 of the f-string layout). -/
def itemPost (formatted_date slug category : String) : String :=
  "\n        <wp:post_date><![CDATA[" ++ formatted_date ++
    "]]></wp:post_date>\n        <wp:post_date_gmt><![CDATA[" ++ formatted_date ++
    "]]></wp:post_date_gmt>\n        <wp:comment_status><![CDATA[open]]></wp:comment_status>\n        <wp:ping_status><![CDATA[open]]></wp:ping_status>\n        <wp:post_name><![CDATA[" ++
    slug ++ "]]></wp:post_name>\n        <wp:status><![CDATA[publish]]></wp:status>\n        <wp:post_type><![CDATA[post]]></wp:post_type>\n        <category domain=\"category\" nicename=\"" ++
    pyLower category ++ "\"><![CDATA[" ++ category ++ "]]></category>\n    </item>"

/-- One export item (source lines 570-585), with the literal layout
of the f-string there. -/
def item_xml (i : Nat) (p : PostData) (now : Dt) : String :=
  let title := escapeTitleXml p.title
  let content := pyStrip p.content
  let dt := resolveItemDate p.publish_date now
  let formatted_date := fmtSQL dt
  let slug := slugOfEscaped title
  let category := p.category
  itemPre title (fmtRFC dt) content ++
    ("<wp:post_id>" ++ toString i ++ "</wp:post_id>") ++
    itemPost formatted_date slug category

/-- The document envelope opening (source lines 529-545). -/
def xmlHeader (site_title : String) (now : Dt) : String :=
  "<?xml version=\"1.0\" encoding=\"UTF-8\" ?>\n<rss version=\"2.0\"\n    xmlns:excerpt=\"http://wordpress.org/export/1.2/excerpt/\"\n    xmlns:content=\"http://purl.org/rss/1.0/modules/content/\"\n    xmlns:wfw=\"http://wellformedweb.org/CommentAPI/\"\n    xmlns:dc=\"http://purl.org/dc/elements/1.1/\"\n    xmlns:wp=\"http://wordpress.org/export/1.2/\"\n>\n\n<channel>\n    <title>" ++
    site_title ++ "</title>\n    <description>Migrated blog posts from Wix</description>\n    <pubDate>" ++
    fmtRFC now ++ "</pubDate>\n    <language>en-US</language>\n    <wp:wxr_version>1.2</wp:wxr_version>\n\n"

/-- The document envelope closing (source lines 587-589). -/
def xmlFooter : String := "\n</channel>\n</rss>"

/-- The item loop of source lines 547-585: items are appended in
input order with a one-based counter. -/
def joinItemsFrom : Nat → List PostData → Dt → String
  | _, [], _ => ""
  | i, p :: ps, now => item_xml i p now ++ joinItemsFrom (i + 1) ps now

/-- The items of the export, as a list, with the same one-based
counter as the loop. -/
def xmlItemsFrom : Nat → List PostData → Dt → List String
  | _, [], _ => []
  | i, p :: ps, now => item_xml i p now :: xmlItemsFrom (i + 1) ps now

/-- The export items of a run. -/
def xmlItems (posts : List PostData) (now : Dt) : List String :=
  xmlItemsFrom 1 posts now

/-- create_wordpress_xml of source lines 520-592 (the string written
to the output file). -/
def create_wordpress_xml (posts : List PostData) (now : Dt) (site_title : String) : String :=
  xmlHeader site_title now ++ joinItemsFrom 1 posts now ++ xmlFooter

/-! ### Specification-side definitions

Definitions transcribed from the wording of the specification (not
from the source), used to compare claims against the embedded code. -/

/-- The pattern order as the specification lists it: fractional-second
UTC timestamp, second-precision UTC timestamp, local timestamp
without zone, calendar date, long-month-name date, abbreviated-month
date, US slash date, EU slash date. -/
def specDateFormats : List (List Char → List (Dt × List Char)) :=
  [fmtFracUTC, fmtSecUTC, fmtLocal, fmtCalendar,
   fmtLongMonth, fmtAbbrevMonth, fmtUSSlash, fmtEUSlash]

/-- The date normalizer as the specification words it: first
successful pattern of the spec-ordered list, absence on exhaustion. -/
def specParseDate (s : String) : Option String :=
  if s = "" then none
  else (firstParse specDateFormats (pyStrip s)).map isoformat

/-- The character class of the slug derivation as the claim words it:
lower-case letters, digits, whitespace and hyphen. -/
def claimSlugKeep (c : Char) : Bool :=
  ('a' ≤ c && c ≤ 'z') || ('0' ≤ c && c ≤ '9') || pyIsSpace c || c = '-'

/-- The slug derivation exactly as claim C7 words it: lower-case the
record title, delete every character outside the class, collapse each
whitespace run to a single hyphen, truncate to 50 characters (no
entity escaping and no strip). -/
def claimSlug (t : String) : String :=
  String.mk ((collapseWsGo false ((pyLower t).data.filter claimSlugKeep)).take 50)

/-- The five text-valued title selectors (every member of the chain
except the final open-graph meta selector). -/
def textTitleSelectors : List Sel :=
  [.tagSel "h1", .tagSel "h2", .clsSel "post-title",
   .attrSel "data-testid" "post-title", .tagSel "title"]

/-- The value a text-valued title selector contributes: the stripped
text of its first match when that text is nonempty, longer than three
characters and not blocklisted. -/
def titleCandAccepted (doc : Forest) (sel : Sel) : Option String :=
  match Forest.selectOne sel doc with
  | some el =>
    let t := pyStrip (Node.getText el)
    if t ≠ "" ∧ t.length > 3 ∧ ¬ titleBlocked t then some t else none
  | none => none

/-- The value the open-graph meta candidate contributes: the stripped
content attribute of its first match when the attribute is nonempty
(no length or blocklist filter). -/
def ogContent (doc : Forest) : Option String :=
  match Forest.selectOne ogTitleSel doc with
  | some (.elem _ a _) =>
    if attrD a "content" ≠ "" then some (pyStrip (attrD a "content")) else none
  | _ => none

/-! ### Concrete inputs used by the claims -/

/-- Four consecutive line breaks. -/
def brChain : String := "<br/><br/><br/><br/>"

/-- A paragraph whose only child is an image. -/
def pImgFragment : String := "<p><img src=\"x\"/></p>"

/-- The styled span of Scenario B. -/
def styledSpanFragment : String := "<span style=\"color:red\">Hi</span>"

/-- The attribute-free span of Scenario B. -/
def bareSpanFragment : String := "<span>Hi</span>"

/-- A document whose only title candidate is a title element reading
Home (Scenario C). -/
def docTitleHome : Forest :=
  Forest.ofList [.elem "title" [] (.cons (.text "Home") .nil)]

/-- A document whose only title candidate is an open-graph meta tag
whose content reads Home. -/
def docOgHome : Forest :=
  Forest.ofList [.elem "meta" [("property", "og:title"), ("content", "Home")] .nil]

/-- A document whose only date candidate is a time element with an
unparseable datetime attribute. -/
def docTimeBad : Forest :=
  Forest.ofList [.elem "time" [("datetime", "notadate")] .nil]

/-- A 120-character text body. -/
def contentText : String := String.mk (List.replicate 120 'a')

/-- A document that passes the acceptance gate: a real heading and an
article long enough to clear the content threshold. -/
def docAccept : Forest :=
  Forest.ofList
    [.elem "h1" [] (.cons (.text "A Nice Post") .nil),
     .elem "article" [] (.cons (.text contentText) .nil)]

/-- A record with a non-sentinel title and a body of the given
length. -/
def recOfLen (n : Nat) : PostData :=
  { url := "u", title := "A Title", publish_date := "",
    category := "Uncategorized", content := String.mk (List.replicate n 'b') }

/-- A sample record with an empty publish date. -/
def samplePost : PostData :=
  { url := "u1", title := "First Post", publish_date := "",
    category := "Food", content := "<p>Hello</p>" }

/-- A second sample record. -/
def samplePost2 : PostData :=
  { url := "u2", title := "Second Post", publish_date := "2021-03-03",
    category := "Travel", content := "<p>World</p>" }

/-- A sample serialization wall-clock instant. -/
def sampleNow : Dt := ⟨2024, 5, 6, 7, 8, 9, 0⟩

/-! ### Helper lemmas -/

/-- Character order reflects to the scalar value. -/
theorem char_le_iff_toNat {a b : Char} : a ≤ b ↔ a.toNat ≤ b.toNat := by
  rw [Char.le_def]
  exact ⟨fun h => h, fun h => h⟩

/-- Char.ofNat round-trips on scalar values below the surrogate
range. -/
theorem toNat_ofNat_valid (n : Nat) (h : n < 55296) : (Char.ofNat n).toNat = n := by
  have hv : n.isValidChar := Or.inl h
  rw [Char.ofNat, dif_pos hv]
  rfl

/-- The ASCII lower-casing never produces an upper-case letter. -/
theorem pyLowerChar_not_upper (c : Char) : ¬('A' ≤ pyLowerChar c ∧ pyLowerChar c ≤ 'Z') := by
  unfold pyLowerChar
  split
  case isTrue h =>
    have h1 : (65 : Nat) ≤ c.toNat := char_le_iff_toNat.mp h.1
    have h2 : c.toNat ≤ 90 := char_le_iff_toNat.mp h.2
    have hval : (Char.ofNat (c.toNat + 32)).toNat = c.toNat + 32 :=
      toNat_ofNat_valid _ (by omega)
    intro hc
    have hz : ('Z').toNat = 90 := rfl
    have := char_le_iff_toNat.mp hc.2
    rw [hval] at this
    omega
  case isFalse h => exact h

/-- Members of a collapsed character list are hyphens or
non-whitespace members of the input. -/
theorem mem_collapseWsGo {c : Char} :
    ∀ (l : List Char) (b : Bool), c ∈ collapseWsGo b l →
      c = '-' ∨ (c ∈ l ∧ pyIsSpace c = false) := by
  intro l
  induction l with
  | nil => intro b h; simp [collapseWsGo] at h
  | cons x xs ih =>
    intro b h
    unfold collapseWsGo at h
    by_cases hx : pyIsSpace x
    · rw [if_pos hx] at h
      by_cases hb : b
      · rw [if_pos hb] at h
        rcases ih true h with h1 | ⟨h2, h3⟩
        · exact Or.inl h1
        · exact Or.inr ⟨List.mem_cons_of_mem x h2, h3⟩
      · rw [if_neg hb] at h
        rcases List.mem_cons.mp h with rfl | h2
        · exact Or.inl rfl
        · rcases ih true h2 with h1 | ⟨h3, h4⟩
          · exact Or.inl h1
          · exact Or.inr ⟨List.mem_cons_of_mem x h3, h4⟩
    · rw [if_neg hx] at h
      rcases List.mem_cons.mp h with rfl | h2
      · exact Or.inr ⟨List.mem_cons_self c xs, by simpa using hx⟩
      · rcases ih false h2 with h1 | ⟨h3, h4⟩
        · exact Or.inl h1
        · exact Or.inr ⟨List.mem_cons_of_mem x h3, h4⟩

/-- Characters of a stripped string come from the original. -/
theorem pyStrip_subset (s : String) : (pyStrip s).data ⊆ s.data := by
  intro c hc
  have h1 : c ∈ (dropWs s.data.reverse).reverse := by
    have := (List.dropWhile_sublist (l := (dropWs s.data.reverse).reverse) (p := pyIsSpace)).subset hc
    exact this
  have h2 : c ∈ dropWs s.data.reverse := List.mem_reverse.mp h1
  have h3 : c ∈ s.data.reverse := (List.dropWhile_sublist _).subset h2
  exact List.mem_reverse.mp h3

/-- Exhausted pattern lists yield absence in firstParse. -/
theorem firstParse_none :
    ∀ (fs : List (List Char → List (Dt × List Char))) (s : String),
      (∀ f ∈ fs, runFmt f s = none) → firstParse fs s = none := by
  intro fs
  induction fs with
  | nil => intro s _; rfl
  | cons f rest ih =>
    intro s h
    unfold firstParse
    rw [h f (List.mem_cons_self f rest)]
    exact ih s fun g hg => h g (List.mem_cons_of_mem f hg)

/-- The unfolding equation of the title chain walk on a nonempty
selector list. -/
theorem extractTitleGo_cons (sel : Sel) (rest : List Sel) (doc : Forest) :
    extractTitleGo (sel :: rest) doc =
      if sel = ogTitleSel then
        match Forest.selectOne sel doc with
        | some (.elem _ a _) =>
          if attrD a "content" ≠ "" then pyStrip (attrD a "content")
          else extractTitleGo rest doc
        | _ => extractTitleGo rest doc
      else
        match Forest.selectOne sel doc with
        | some el =>
          let t := pyStrip (Node.getText el)
          if t ≠ "" then
            if t.length > 3 ∧ ¬ titleBlocked t then t else extractTitleGo rest doc
          else extractTitleGo rest doc
        | none => extractTitleGo rest doc := rfl

/-- A text selector whose candidate is rejected is skipped by the
title chain walk. -/
theorem extractTitleGo_skip (sel : Sel) (rest : List Sel) (doc : Forest)
    (hne : sel ≠ ogTitleSel) (h : titleCandAccepted doc sel = none) :
    extractTitleGo (sel :: rest) doc = extractTitleGo rest doc := by
  rw [extractTitleGo_cons, if_neg hne]
  unfold titleCandAccepted at h
  cases hSel : Forest.selectOne sel doc with
  | none => simp only [hSel]
  | some el =>
    simp only [hSel] at h ⊢
    split at h
    case isTrue hc => exact absurd h (by simp)
    case isFalse hc =>
      split
      case isTrue ht =>
        split
        case isTrue hc2 => exact absurd ⟨ht, hc2⟩ hc
        case isFalse => rfl
      case isFalse => rfl

/-- The title chain walk on the final open-graph selector, absent
content case. -/
theorem extractTitleGo_og_none (doc : Forest) (h : ogContent doc = none) :
    extractTitleGo [ogTitleSel] doc = "Untitled Post" := by
  rw [extractTitleGo_cons, if_pos rfl]
  unfold ogContent at h
  cases hSel : Forest.selectOne ogTitleSel doc with
  | none => simp only [hSel]; rfl
  | some el =>
    cases el with
    | text s => simp only [hSel]; rfl
    | elem n a cs =>
      simp only [hSel] at h ⊢
      split at h
      case isTrue hc => exact absurd h (by simp)
      case isFalse hc =>
        split
        case isTrue hc2 => exact absurd hc2 hc
        case isFalse => rfl

/-- The title chain walk on the final open-graph selector, present
content case: the stripped content is returned with no filtering. -/
theorem extractTitleGo_og_some (doc : Forest) (v : String) (h : ogContent doc = some v) :
    extractTitleGo [ogTitleSel] doc = v := by
  rw [extractTitleGo_cons, if_pos rfl]
  unfold ogContent at h
  cases hSel : Forest.selectOne ogTitleSel doc with
  | none => simp only [hSel] at h; exact Option.noConfusion h
  | some el =>
    cases el with
    | text s => simp only [hSel] at h; exact Option.noConfusion h
    | elem n a cs =>
      simp only [hSel] at h ⊢
      split at h
      case isTrue hc =>
        rw [if_pos hc]
        exact (Option.some.injEq _ _ ▸ h :)
      case isFalse hc => exact absurd h (by simp)

/-- The unfolding equation of the date chain walk. -/
theorem extractDateGo_cons (sel : Sel) (rest : List Sel) (doc : Forest) :
    extractDateGo (sel :: rest) doc =
      match Forest.selectOne sel doc with
      | some el =>
        let v := dateValOf el
        if v ≠ "" then
          match parse_date v with
          | some iso => iso
          | none => v
        else extractDateGo rest doc
      | none => extractDateGo rest doc := rfl

/-- The unfolding equation of the raw date candidate walk. -/
theorem dateRawGo_cons (sel : Sel) (rest : List Sel) (doc : Forest) :
    dateRawGo (sel :: rest) doc =
      match Forest.selectOne sel doc with
      | some el =>
        let v := dateValOf el
        if v ≠ "" then some v else dateRawGo rest doc
      | none => dateRawGo rest doc := rfl

/-- When the raw candidate of a chain exists but the normalizer fails
on it, the chain walk returns the raw candidate itself. -/
theorem extractDateGo_raw :
    ∀ (sels : List Sel) (doc : Forest) (raw : String),
      dateRawGo sels doc = some raw → parse_date raw = none →
        extractDateGo sels doc = raw := by
  intro sels
  induction sels with
  | nil => intro doc raw h _; exact Option.noConfusion h
  | cons sel rest ih =>
    intro doc raw h hp
    rw [dateRawGo_cons] at h
    rw [extractDateGo_cons]
    cases hSel : Forest.selectOne sel doc with
    | none =>
      simp only [hSel] at h ⊢
      exact ih doc raw h hp
    | some el =>
      simp only [hSel] at h ⊢
      by_cases hv : dateValOf el ≠ ""
      · rw [if_pos hv] at h ⊢
        have hvr : dateValOf el = raw := Option.some.inj h
        rw [hvr, hp]
      · rw [if_neg hv] at h ⊢
        exact ih doc raw h hp

/-- When every selector of the chain fails to produce a raw
candidate, the chain walk returns the empty string. -/
theorem extractDateGo_empty :
    ∀ (sels : List Sel) (doc : Forest),
      dateRawGo sels doc = none → extractDateGo sels doc = "" := by
  intro sels
  induction sels with
  | nil => intro doc _; rfl
  | cons sel rest ih =>
    intro doc h
    rw [dateRawGo_cons] at h
    rw [extractDateGo_cons]
    cases hSel : Forest.selectOne sel doc with
    | none =>
      simp only [hSel] at h ⊢
      exact ih doc h
    | some el =>
      simp only [hSel] at h ⊢
      by_cases hv : dateValOf el ≠ ""
      · rw [if_pos hv] at h
        exact Option.noConfusion h
      · rw [if_neg hv] at h ⊢
        exact ih doc h

/-- The item list has one entry per record. -/
theorem xmlItemsFrom_length :
    ∀ (ps : List PostData) (i : Nat) (now : Dt),
      (xmlItemsFrom i ps now).length = ps.length := by
  intro ps
  induction ps with
  | nil => intro i now; rfl
  | cons p rest ih =>
    intro i now
    simp only [xmlItemsFrom, List.length_cons]
    rw [ih (i + 1) now]

/-- The item at a position is the rendering of the record at that
position with the shifted counter. -/
theorem xmlItemsFrom_getD :
    ∀ (ps : List PostData) (i k : Nat) (now : Dt), k < ps.length →
      (xmlItemsFrom i ps now).getD k "" = item_xml (i + k) (ps.getD k (recOfLen 0)) now := by
  intro ps
  induction ps with
  | nil => intro i k now h; exact absurd h (by simp)
  | cons p rest ih =>
    intro i k now h
    cases k with
    | zero => simp [xmlItemsFrom]
    | succ k2 =>
      have h2 : k2 < rest.length := by
        simpa using Nat.lt_of_succ_lt_succ h
      have harith : i + 1 + k2 = i + (k2 + 1) := by omega
      simp only [xmlItemsFrom, List.getD_cons_succ]
      rw [ih (i + 1) k2 now h2, harith]

/-- The concatenated items equal the folded item list. -/
theorem joinItemsFrom_foldr :
    ∀ (ps : List PostData) (i : Nat) (now : Dt),
      joinItemsFrom i ps now = (xmlItemsFrom i ps now).foldr (· ++ ·) "" := by
  intro ps
  induction ps with
  | nil => intro i now; rfl
  | cons p rest ih =>
    intro i now
    simp only [joinItemsFrom, xmlItemsFrom, List.foldr_cons]
    rw [ih (i + 1) now]

/-! ### The claims -/

/-- Claim C1 (code bug): clean_wix_content is not idempotent.  On
four consecutive line breaks the stage 10 line-break substitution
(whose pattern consumes exactly three br tags per match, and whose
replacement text uses a serialization the next parse re-normalizes)
leaves three br tags, which a second application collapses further,
so applying the cleaner to its own output is not a no-op. -/
theorem C1_clean_not_idempotent :
    clean_wix_content brChain = "<br /><br /><br/>" ∧
    clean_wix_content (clean_wix_content brChain) = "<br /><br />" ∧
    clean_wix_content (clean_wix_content brChain) ≠ clean_wix_content brChain :=
  ⟨by decide, by decide, by decide⟩

/-- Claim C2 (code bug): image preservation fails.  The fragment
parses to a paragraph whose only child is an image with source x; the
empty-paragraph removal of stage 7 tests only the stripped text of
the paragraph, finds it empty, and decomposes the paragraph together
with the image, so the cleaned output is empty and the source value x
is lost. -/
theorem C2_paragraph_image_lost :
    parseFragment pImgFragment =
      Forest.ofList [.elem "p" [] (.cons (.elem "img" [("src", "x")] .nil) .nil)] ∧
    clean_wix_content pImgFragment = "" :=
  ⟨rfl, by decide⟩

/-- Claim C3 counterexample: the styled span of Scenario B is not
left wrapped.  The attribute stripping of stage 3 removes the style
attribute before the span cleanup runs, so the styled span is
unwrapped to the bare text, which differs from the claimed retained
form. -/
theorem C3_styled_span_not_retained_cex :
    clean_wix_content styledSpanFragment = "Hi" ∧
    ("Hi" : String) ≠ styledSpanFragment :=
  ⟨by decide, by decide⟩

/-- Claim C3 as amended: both the styled span and the bare span are
unwrapped to the bare text Hi, because the attribute stripping stage
removes the style attribute before the span cleanup tests it. -/
theorem C3_spans_unwrapped_amended :
    clean_wix_content styledSpanFragment = "Hi" ∧
    clean_wix_content bareSpanFragment = "Hi" :=
  ⟨by decide, by decide⟩

/-- Claim C4 counterexample: a blocklisted candidate is returned.  A
document whose only candidate is an open-graph meta tag with content
Home resolves to Home even though that value starts with a blocklist
word, because the meta branch of extract_title returns the content
attribute without the length or blocklist filter. -/
theorem C4_og_bypasses_blocklist_cex :
    extract_title docOgHome = "Home" ∧
    titleBlocked "Home" = true ∧
    extract_title docOgHome ≠ "Untitled Post" :=
  ⟨by decide, by decide, by decide⟩

/-- Claim C4 as amended: the shorter-than-4 and home/blog/menu
blocklist filter applies to the five text-valued candidates only; the
open-graph meta candidate is returned unfiltered; when every text
candidate is rejected and the meta candidate is absent the result is
exactly the sentinel; a document whose only candidate is a title
element reading Home yields the sentinel. -/
theorem C4_title_chain_amended :
    (∀ doc : Forest, (∀ sel ∈ textTitleSelectors, titleCandAccepted doc sel = none) →
       ogContent doc = none → extract_title doc = "Untitled Post") ∧
    (∀ (doc : Forest) (v : String),
       (∀ sel ∈ textTitleSelectors, titleCandAccepted doc sel = none) →
       ogContent doc = some v → extract_title doc = v) ∧
    extract_title docTitleHome = "Untitled Post" := by
  have hchain : ∀ doc : Forest,
      (∀ sel ∈ textTitleSelectors, titleCandAccepted doc sel = none) →
      extract_title doc = extractTitleGo [ogTitleSel] doc := by
    intro doc h
    show extractTitleGo title_selectors doc = extractTitleGo [ogTitleSel] doc
    unfold title_selectors
    rw [extractTitleGo_skip (.tagSel "h1") _ doc (by decide) (h _ (by decide))]
    rw [extractTitleGo_skip (.tagSel "h2") _ doc (by decide) (h _ (by decide))]
    rw [extractTitleGo_skip (.clsSel "post-title") _ doc (by decide) (h _ (by decide))]
    rw [extractTitleGo_skip (.attrSel "data-testid" "post-title") _ doc (by decide)
      (h _ (by decide))]
    rw [extractTitleGo_skip (.tagSel "title") _ doc (by decide) (h _ (by decide))]
    rfl
  refine ⟨?_, ?_, by decide⟩
  · intro doc h hog
    rw [hchain doc h]
    exact extractTitleGo_og_none doc hog
  · intro doc v h hog
    rw [hchain doc h]
    exact extractTitleGo_og_some doc v hog

/-- Witness for the amended claim C4, at the Scenario C document. -/
theorem C4_title_chain_amended_witness :
    extract_title docTitleHome = "Untitled Post" :=
  C4_title_chain_amended.1 docTitleHome (by decide) (by decide)

/-- Claim C5: parse_date tries exactly the specification-ordered
pattern list (fractional-second UTC, second-precision UTC, local,
calendar, long month, abbreviated month, US slash, EU slash),
returning the isoformat rendering of the first success; the ambiguous
slash date resolves US-first as March 4; the long-month date
normalizes to the calendar instant; exhaustion of every pattern
yields absence. -/
theorem C5_parse_date_order :
    (∀ s : String, parse_date s = specParseDate s) ∧
    parse_date "03/04/2021" = some "2021-03-04T00:00:00" ∧
    parse_date "March 3, 2021" = some "2021-03-03T00:00:00" ∧
    (∀ s : String, (∀ f ∈ dateFormats, runFmt f (pyStrip s) = none) →
       parse_date s = none) := by
  refine ⟨fun s => rfl, by decide, by decide, ?_⟩
  intro s h
  unfold parse_date
  by_cases hs : s = ""
  · rw [if_pos hs]
  · rw [if_neg hs, firstParse_none _ _ h]
    rfl

/-- Witness for claim C5 at an input no pattern accepts. -/
theorem C5_parse_date_order_witness :
    parse_date "not a date" = none :=
  C5_parse_date_order.2.2.2 "not a date" (by decide)

/-- Claim C6: a record is accepted by scrape_post exactly when its
resolved title is not the sentinel and its raw body length strictly
exceeds 100; the gate rejects a body of exactly 100 characters and
accepts one of 101 characters under a non-sentinel title. -/
theorem C6_acceptance_gate :
    (∀ (url : String) (doc : Forest), (scrape_post url doc).isSome = true ↔
       (extract_title doc ≠ "Untitled Post" ∧ (extract_content doc).length > 100)) ∧
    (∀ p : PostData, p.content.length = 100 → acceptGate p = false) ∧
    (∀ p : PostData, p.content.length = 101 → p.title ≠ "Untitled Post" →
       acceptGate p = true) := by
  refine ⟨?_, ?_, ?_⟩
  · intro url doc
    have hiff : acceptGate (scrapePostData url doc) = true ↔
        (extract_title doc ≠ "Untitled Post" ∧ (extract_content doc).length > 100) := by
      unfold acceptGate scrapePostData
      simp
    rw [show scrape_post url doc =
      (if acceptGate (scrapePostData url doc) = true then some (scrapePostData url doc)
       else none) from rfl]
    split
    case isTrue hg => simpa using hiff.mp hg
    case isFalse hg =>
      exact iff_of_false (by simp) fun hc => hg (hiff.mpr hc)
  · intro p h
    unfold acceptGate
    simp [h]
  · intro p h ht
    unfold acceptGate
    simp [h, ht]

/-- Witness for claim C6: the exact boundary records and an accepted
document. -/
theorem C6_acceptance_gate_witness :
    acceptGate (recOfLen 100) = false ∧ acceptGate (recOfLen 101) = true ∧
      (scrape_post "u" docAccept).isSome = true :=
  ⟨C6_acceptance_gate.2.1 (recOfLen 100) (by decide),
   C6_acceptance_gate.2.2 (recOfLen 101) (by decide) (by decide),
   (C6_acceptance_gate.1 "u" docAccept).mpr ⟨by decide, by decide⟩⟩

/-- Claim C7 counterexample: the slug is not derived from the record
title as the claim words it.  The serializer derives the slug from
the entity-escaped title, so a title containing an ampersand yields
a-amp-b where the claimed derivation yields a-b (the claimed
derivation also skips the strip the code performs before collapsing
whitespace). -/
theorem C7_slug_escaped_title_cex :
    makeSlug "A & B" = "a-amp-b" ∧
    claimSlug "A & B" = "a-b" ∧
    makeSlug "A & B" ≠ claimSlug "A & B" :=
  ⟨by decide, by decide, by decide⟩

/-- Helper bound on the length of a truncated string. -/
theorem strmk_take_length (n : Nat) (l : List Char) :
    (String.mk (l.take n)).length ≤ n := by
  show (l.take n).length ≤ n
  exact List.length_take_le n l

/-- Claim C7 as amended: the serializer derives the item slug from
the entity-escaped record title by lower-casing, deleting every
character outside the kept class, trimming surrounding whitespace,
collapsing each whitespace run to a single hyphen and truncating to
50 characters; the result is a pure function of the title, is at most
50 characters long, and uses only lower-case letters, digits and
hyphens; the slug of every record title is embedded in its export
item. -/
theorem C7_slug_amended :
    (∀ t : String, makeSlug t =
       String.mk ((collapseWsGo false
         (pyStrip (String.mk ((pyLower (escapeTitleXml t)).data.filter slugKeep))).data).take 50)) ∧
    (∀ t : String, (makeSlug t).length ≤ 50) ∧
    (∀ t : String, ∀ c ∈ (makeSlug t).data,
       ('a' ≤ c ∧ c ≤ 'z') ∨ ('0' ≤ c ∧ c ≤ '9') ∨ c = '-') ∧
    (∀ (i : Nat) (p : PostData) (now : Dt), ∃ a b,
       item_xml i p now = a ++ makeSlug p.title ++ b) := by
  refine ⟨fun t => rfl, fun t => strmk_take_length 50 _, ?_, ?_⟩
  · intro t c hc
    have hc' : c ∈ (collapseWsGo false
        (pyStrip (String.mk ((pyLower (escapeTitleXml t)).data.filter slugKeep))).data).take 50 := hc
    have h1 := List.take_subset 50 _ hc'
    rcases mem_collapseWsGo _ _ h1 with rfl | ⟨h2, hns⟩
    · exact Or.inr (Or.inr rfl)
    · have h3 : c ∈ ((pyLower (escapeTitleXml t)).data.filter slugKeep) :=
        pyStrip_subset (String.mk ((pyLower (escapeTitleXml t)).data.filter slugKeep)) h2
      have h4 : slugKeep c = true := (List.mem_filter.mp h3).2
      have h5 : c ∈ (escapeTitleXml t).data.map pyLowerChar := (List.mem_filter.mp h3).1
      obtain ⟨c0, _, rfl⟩ := List.mem_map.mp h5
      have hnu := pyLowerChar_not_upper c0
      unfold slugKeep at h4
      simp only [Bool.or_eq_true, Bool.and_eq_true, decide_eq_true_iff] at h4
      rcases h4 with (((⟨ha, hb⟩ | ⟨ha, hb⟩) | ⟨ha, hb⟩) | hws) | heq
      · exact Or.inl ⟨ha, hb⟩
      · exact absurd ⟨ha, hb⟩ hnu
      · exact Or.inr (Or.inl ⟨ha, hb⟩)
      · rw [hns] at hws
        exact Bool.noConfusion hws
      · exact Or.inr (Or.inr heq)
  · intro i p now
    refine ⟨itemPre (escapeTitleXml p.title) (fmtRFC (resolveItemDate p.publish_date now))
        (pyStrip p.content) ++ ("<wp:post_id>" ++ toString i ++ "</wp:post_id>") ++
        ("\n        <wp:post_date><![CDATA[" ++ fmtSQL (resolveItemDate p.publish_date now) ++
         "]]></wp:post_date>\n        <wp:post_date_gmt><![CDATA[" ++
         fmtSQL (resolveItemDate p.publish_date now) ++
         "]]></wp:post_date_gmt>\n        <wp:comment_status><![CDATA[open]]></wp:comment_status>\n        <wp:ping_status><![CDATA[open]]></wp:ping_status>\n        <wp:post_name><![CDATA["),
      "]]></wp:post_name>\n        <wp:status><![CDATA[publish]]></wp:status>\n        <wp:post_type><![CDATA[post]]></wp:post_type>\n        <category domain=\"category\" nicename=\"" ++
        pyLower p.category ++ "\"><![CDATA[" ++ p.category ++ "]]></category>\n    </item>", ?_⟩
    simp [item_xml, itemPost, makeSlug, String.append_assoc]

/-- Witness for the amended claim C7 at a concrete title. -/
theorem C7_slug_amended_witness :
    (makeSlug "A Nice Title").length ≤ 50 ∧
    (('a' ≤ 'a' ∧ 'a' ≤ 'z') ∨ ('0' ≤ 'a' ∧ 'a' ≤ '9') ∨ 'a' = '-') :=
  ⟨C7_slug_amended.2.1 "A Nice Title",
   C7_slug_amended.2.2.1 "A Nice Title" 'a' (by decide)⟩

/-- Claim C8: when the date chain finds a raw candidate value that
the normalizer cannot parse, the raw string itself is returned as the
publish date rather than being discarded. -/
theorem C8_raw_date_preserved :
    ∀ (doc : Forest) (raw : String), dateRaw doc = some raw →
      parse_date raw = none → extract_date doc = raw :=
  fun doc raw h hp => extractDateGo_raw date_selectors doc raw h hp

/-- Witness for claim C8 at a document with an unparseable datetime
attribute. -/
theorem C8_raw_date_preserved_witness :
    extract_date docTimeBad = "notadate" :=
  C8_raw_date_preserved docTimeBad "notadate" (by decide) (by decide)

/-- Claim C9: the serializer emits exactly one item per record, in
input order, the item at each zero-based position being the record at
that position rendered with the one-based counter; each item embeds
its numeric post identifier equal to the counter; the document is the
envelope around the concatenated items. -/
theorem C9_item_bijection :
    (∀ (posts : List PostData) (now : Dt), (xmlItems posts now).length = posts.length) ∧
    (∀ (posts : List PostData) (now : Dt) (k : Nat), k < posts.length →
       (xmlItems posts now).getD k "" = item_xml (k + 1) (posts.getD k (recOfLen 0)) now) ∧
    (∀ (i : Nat) (p : PostData) (now : Dt), ∃ a b,
       item_xml i p now = a ++ ("<wp:post_id>" ++ toString i ++ "</wp:post_id>") ++ b) ∧
    (∀ (posts : List PostData) (now : Dt) (t : String),
       create_wordpress_xml posts now t =
         xmlHeader t now ++ (xmlItems posts now).foldr (· ++ ·) "" ++ xmlFooter) := by
  refine ⟨?_, ?_, ?_, ?_⟩
  · intro posts now
    exact xmlItemsFrom_length posts 1 now
  · intro posts now k h
    have hx := xmlItemsFrom_getD posts 1 k now h
    rw [Nat.add_comm 1 k] at hx
    exact hx
  · intro i p now
    exact ⟨itemPre (escapeTitleXml p.title) (fmtRFC (resolveItemDate p.publish_date now))
        (pyStrip p.content),
      itemPost (fmtSQL (resolveItemDate p.publish_date now))
        (slugOfEscaped (escapeTitleXml p.title)) p.category, rfl⟩
  · intro posts now t
    unfold create_wordpress_xml xmlItems
    rw [joinItemsFrom_foldr]

/-- Witness for claim C9 at a two-record run. -/
theorem C9_item_bijection_witness :
    (xmlItems [samplePost, samplePost2] sampleNow).getD 1 "" =
      item_xml 2 ([samplePost, samplePost2].getD 1 (recOfLen 0)) sampleNow :=
  C9_item_bijection.2.1 [samplePost, samplePost2] sampleNow 1 (by decide)

/-- Claim C10: when every date selector fails to match or every match
yields no value, extract_date returns the empty string; downstream
the serializer treats the empty publish date as falsy and substitutes
the serialization wall-clock time, which reaches the pubDate field of
the emitted item. -/
theorem C10_empty_date_fallback :
    (∀ doc : Forest, dateRaw doc = none → extract_date doc = "") ∧
    (∀ now : Dt, resolveItemDate "" now = now) ∧
    (∀ (i : Nat) (p : PostData) (now : Dt), p.publish_date = "" → ∃ a b,
       item_xml i p now = a ++ fmtRFC now ++ b) := by
  refine ⟨?_, fun now => rfl, ?_⟩
  · intro doc h
    exact extractDateGo_empty date_selectors doc h
  · intro i p now hp
    have h0 : resolveItemDate "" now = now := rfl
    have hd : resolveItemDate p.publish_date now = now := by rw [hp, h0]
    refine ⟨"\n    <item>\n        <title><![CDATA[" ++ escapeTitleXml p.title ++
        "]]></title>\n        <pubDate>",
      "</pubDate>\n        <dc:creator><![CDATA[admin]]></dc:creator>\n        <content:encoded><![CDATA[" ++
        pyStrip p.content ++ "]]></content:encoded>\n        " ++
        ("<wp:post_id>" ++ toString i ++ "</wp:post_id>") ++
        itemPost (fmtSQL (resolveItemDate p.publish_date now))
          (slugOfEscaped (escapeTitleXml p.title)) p.category, ?_⟩
    rw [show item_xml i p now =
      itemPre (escapeTitleXml p.title) (fmtRFC (resolveItemDate p.publish_date now))
        (pyStrip p.content) ++
        ("<wp:post_id>" ++ toString i ++ "</wp:post_id>") ++
        itemPost (fmtSQL (resolveItemDate p.publish_date now))
          (slugOfEscaped (escapeTitleXml p.title)) p.category from rfl]
    rw [hd]
    simp [itemPre, String.append_assoc]

/-- Witness for claim C10 at the empty document. -/
theorem C10_empty_date_fallback_witness :
    extract_date Forest.nil = "" :=
  C10_empty_date_fallback.1 Forest.nil (by decide)
